import Mathlib

/-!
Shallow embedding of `src/kernel/mm/qmempool.c` (a two-tier, per-CPU memory
pool built on ring buffers and a backing slab allocator), together with
theorems settling the specification claims about it.

Element handles are modelled as natural numbers.  The backing allocator
(`kmem_cache`) and the ring-buffer primitive (`ring_queue`) are external to
the excerpted source; they are modelled from the specification's interface
section (§6), instrumented with call counters so that allocation/free
accounting can be stated.
-/

set_option autoImplicit false

namespace Qmempool

/-- Bulk transfer size `QMEMPOOL_BULK`.  The constant is defined in the
header (not part of the excerpted core); the source comments fix its value
at 16 (qmempool.c lines 85, 203, 240). -/
def QMEMPOOL_BULK : Nat := 16

/-- Refill multiplier `QMEMPOOL_REFILL_MULTIPLIER`.  Defined in the header;
the source comment at qmempool.c line 85 fixes its value at 2. -/
def QMEMPOOL_REFILL_MULTIPLIER : Nat := 2

/-- Mirror of the C macro `POWEROF2(x) (((x) & ((x) - 1)) == 0)`
(qmempool.c line 29). -/
def POWEROF2 (x : Nat) : Bool := x &&& (x - 1) == 0

/-! ## Ring queue

Modelled from the spec: the ring-buffer interface of §6 (the `ring_queue`
implementation itself is external to `src/`).  A ring of size `size` holds
at most `size - 1` elements (§3: "usable capacity is capacity − 1").  The
queue is FIFO: the head of the list is the dequeue side.  Bulk operations
are all-or-nothing (§6).  The single-producer / multi-producer mode flags
only affect concurrent use and are not represented. -/

structure RingQueue where
  size : Nat
  q : List Nat
  deriving DecidableEq, Repr

/-- Ring creation: an empty ring of the given size (§6 `create`). -/
def ring_queue_create (size : Nat) : RingQueue := ⟨size, []⟩

/-- Emptiness test (§6 `is_empty`). -/
def ring_queue_empty (r : RingQueue) : Bool := r.q.isEmpty

/-- Single enqueue (§6): fails (returns `none`) when the ring is full. -/
def ring_queue_enqueue (r : RingQueue) (e : Nat) : Option RingQueue :=
  if r.q.length + 1 ≤ r.size - 1 then some ⟨r.size, r.q ++ [e]⟩ else none

/-- Single dequeue (§6): fails on an empty ring. -/
def ring_queue_dequeue (r : RingQueue) : Option (Nat × RingQueue) :=
  match r.q with
  | [] => none
  | e :: rest => some (e, ⟨r.size, rest⟩)

/-- Bulk enqueue (§6): all-or-nothing, fails if the elements do not all fit. -/
def ring_queue_enqueue_bulk (r : RingQueue) (es : List Nat) : Option RingQueue :=
  if r.q.length + es.length ≤ r.size - 1 then some ⟨r.size, r.q ++ es⟩ else none

/-- Bulk dequeue of `n` elements (§6): all-or-nothing, fails if fewer than
`n` elements are present. -/
def ring_queue_dequeue_bulk (r : RingQueue) (n : Nat) :
    Option (List Nat × RingQueue) :=
  if n ≤ r.q.length then some (r.q.take n, ⟨r.size, r.q.drop n⟩) else none

/-! ## Backing allocator (slab)

Modelled from the spec: the backing-allocator interface of §6
(`alloc(flags) -> elem | Null`, `free(elem)`), instrumented with:
`next`, the next fresh element handle (each successful `alloc` yields a
distinct handle); `failAt`, an oracle saying whether the i-th `alloc` call
fails; `allocCalls` / `freeCalls`, call counters; and `freed`, the list of
handles reclaimed so far. -/

structure Slab where
  next : Nat
  failAt : Nat → Bool
  allocCalls : Nat
  freeCalls : Nat
  freed : List Nat

/-- Backing-allocator allocation (`kmem_cache_alloc`): consults the failure
oracle at the current call index; on success returns a fresh handle. -/
def kmem_cache_alloc (s : Slab) : Option Nat × Slab :=
  if s.failAt s.allocCalls then
    (none, { s with allocCalls := s.allocCalls + 1 })
  else
    (some s.next, { s with next := s.next + 1, allocCalls := s.allocCalls + 1 })

/-- Backing-allocator reclaim (`kmem_cache_free`). -/
def kmem_cache_free (s : Slab) (e : Nat) : Slab :=
  { s with freeCalls := s.freeCalls + 1, freed := s.freed ++ [e] }

/-! ## Allocate, slow path: `__qmempool_alloc_from_sharedq`
(qmempool.c lines 191–226). -/

/-- Result of `__qmempool_alloc_from_sharedq`: returned element (if any)
and the two rings after the call. -/
structure SharedqOut where
  ret : Option Nat
  sharedq : RingQueue
  localq : RingQueue
  deriving DecidableEq, Repr

/-- Embedding of `__qmempool_alloc_from_sharedq` (qmempool.c lines 191–226):
bulk-dequeue `QMEMPOOL_BULK` elements from the shared queue; on success
return `elems[0]` and bulk-enqueue `elems[1..]` (that is, `QMEMPOOL_BULK-1`
elements) into the local queue.  The outer `Option` is `none` exactly when
the `BUG_ON(res < 0)` at line 221 fires (the local enqueue failed). -/
def __qmempool_alloc_from_sharedq (sharedq localq : RingQueue) :
    Option SharedqOut :=
  match ring_queue_dequeue_bulk sharedq QMEMPOOL_BULK with
  | some (elems, sharedq1) =>
    match ring_queue_enqueue_bulk localq (elems.drop 1) with
    | some localq1 => some ⟨elems.head?, sharedq1, localq1⟩
    | none => none
  | none => some ⟨none, sharedq, localq⟩

/-! ## Allocate, slowest path: `__qmempool_alloc_from_slab`
(qmempool.c lines 229–284). -/

/-- Inner allocation loop of one refill round (the `j` loop at qmempool.c
lines 251–263): allocate up to `n` elements from the slab, stopping at the
first failure.  Returns the successfully allocated elements in order, the
slab state, and whether all `n` allocations succeeded. -/
def allocN (s : Slab) : Nat → List Nat × Slab × Bool
  | 0 => ([], s, true)
  | n + 1 =>
    match kmem_cache_alloc s with
    | (some e, s1) =>
      match allocN s1 n with
      | (es, s2, ok) => (e :: es, s2, ok)
    | (none, s1) => ([], s1, false)

/-- The refill rounds of `__qmempool_alloc_from_slab` (the `i` loop at
qmempool.c lines 250–272).  Each round allocates `QMEMPOOL_BULK` elements.
If all succeed they are bulk-enqueued into the shared queue and the next
round runs.  If the allocation at index `j` fails, the source enqueues the
array with count `j - 1` (line 259): for `j ≥ 1` that enqueues only the
first `j - 1` of the `j` successfully allocated elements, dropping the
last one — the dropped handles are returned as the third component (a ghost
record of allocated-but-unreferenced elements, present only so leaks can be
stated); for `j = 0` the count `-1` underflows the unsigned bulk count and
the enqueue fails, so `BUG_ON(res < 0)` fires (modelled as `none`).
An `enqueue` failure is the `BUG_ON` at line 260 / 271, modelled `none`. -/
def refillRounds : Nat → Slab → RingQueue → Option (Slab × RingQueue × List Nat)
  | 0, s, q => some (s, q, [])
  | i + 1, s, q =>
    match allocN s QMEMPOOL_BULK with
    | (es, s1, true) =>
      match ring_queue_enqueue_bulk q es with
      | some q1 => refillRounds i s1 q1
      | none => none
    | (es, s1, false) =>
      match es.length with
      | 0 => none
      | j' + 1 =>
        match ring_queue_enqueue_bulk q (es.take j') with
        | some q1 => some (s1, q1, es.drop j')
        | none => none

/-- Result of `__qmempool_alloc_from_slab`: returned element, slab state,
shared queue, and the ghost list of leaked handles. -/
structure SlabOut where
  ret : Option Nat
  slab : Slab
  sharedq : RingQueue
  leaked : List Nat

/-- Embedding of `__qmempool_alloc_from_slab` (qmempool.c lines 229–284):
allocate one element directly from the slab for the caller (returning
`none` as the result on failure, lines 243–248), then run
`QMEMPOOL_REFILL_MULTIPLIER` refill rounds.  The outer `Option` is `none`
exactly when a `BUG_ON` fires inside the rounds. -/
def __qmempool_alloc_from_slab (s : Slab) (sharedq : RingQueue) :
    Option SlabOut :=
  match kmem_cache_alloc s with
  | (none, s1) => some ⟨none, s1, sharedq, []⟩
  | (some elem, s1) =>
    match refillRounds QMEMPOOL_REFILL_MULTIPLIER s1 sharedq with
    | some (s2, q1, leaked) => some ⟨some elem, s2, q1, leaked⟩
    | none => none

/-! ## Free, slow path: `__qmempool_free_to_slab`
(qmempool.c lines 286–308). -/

/-- The shrink rounds of `__qmempool_free_to_slab` (the `i` loop at
qmempool.c lines 299–306): each round bulk-dequeues `QMEMPOOL_BULK`
elements from the shared queue and reclaims them to the slab.  A dequeue
failure is the `BUG_ON` at line 302, modelled as `none`. -/
def shrinkRounds : Nat → Slab → RingQueue → Option (Slab × RingQueue)
  | 0, s, q => some (s, q)
  | i + 1, s, q =>
    match ring_queue_dequeue_bulk q QMEMPOOL_BULK with
    | some (es, q1) => shrinkRounds i (es.foldl kmem_cache_free s) q1
    | none => none

/-- Embedding of `__qmempool_free_to_slab` (qmempool.c lines 286–308):
reclaim the `QMEMPOOL_BULK` elements of `elems` directly to the slab
(lines 292–294), then run `QMEMPOOL_REFILL_MULTIPLIER` shrink rounds. -/
def __qmempool_free_to_slab (s : Slab) (sharedq : RingQueue)
    (elems : List Nat) : Option (Slab × RingQueue) :=
  shrinkRounds QMEMPOOL_REFILL_MULTIPLIER (elems.foldl kmem_cache_free s) sharedq

/-! ## Pool data model (struct `qmempool` / `struct qmempool_percpu`)

The struct definitions live in the header; the fields below are the ones
the excerpted core reads and writes.  Nullable pointers are `Option`s. -/

/-- Per-CPU state `struct qmempool_percpu`: the local SPSC ring (null until
created) and the diagnostic counters initialised at qmempool.c
lines 157–159.  `alloc_percpu` zeroes the memory, so an uninitialised slot
has `localq = none` and zero counters. -/
structure CpuCache where
  localq : Option RingQueue
  refill_cnt : Nat
  full_cnt : Nat
  owner_cpu : Int
  deriving DecidableEq, Repr

/-- Pool record `struct qmempool`.  `kmem` records whether the backing
allocator handle is non-null (the handle itself is threaded separately as
a `Slab` state); `percpu` is the per-CPU table, one `CpuCache` per
possible CPU. -/
structure Pool where
  kmem : Bool
  prealloc : Nat
  sharedq : Option RingQueue
  percpu : Option (List CpuCache)
  deriving DecidableEq, Repr

/-- Reclaim every element of a ring to the slab: the
`while (ring_queue_dequeue(..) >= 0) kmem_cache_free(..)` drain loops of
`qmempool_destroy` (qmempool.c lines 44–46 and 54–55).  The loop runs
until the ring is empty, so the `BUG_ON(!ring_queue_empty(..))` that
follows it can never fire and needs no failure case. -/
def drainq (s : Slab) (r : RingQueue) : Slab :=
  r.q.foldl kmem_cache_free s

/-- Per-CPU drain loop of `qmempool_destroy` (qmempool.c lines 40–49):
for each possible CPU, dequeue-and-free everything in `cpu->localq`, then
free the ring.  The source does not null-check `cpu->localq`; a slot whose
ring was never created (`none`) is dereferenced by `ring_queue_dequeue`,
modelled as the fatal outcome `none`. -/
def drainCpus (s : Slab) : List CpuCache → Option Slab
  | [] => some s
  | c :: cs =>
    match c.localq with
    | some r => drainCpus (drainq s r) cs
    | none => none

/-- Embedding of `qmempool_destroy` (qmempool.c lines 34–61): if the
per-CPU table exists, drain and free every local ring; if the shared ring
exists, drain and free it; finally `kfree` the pool record.  A `some`
result means destruction completed (and thus the pool record was
released); `none` means a null local ring was dereferenced. -/
def qmempool_destroy (s : Slab) (pool : Pool) : Option Slab :=
  match pool.percpu with
  | some cs =>
    match drainCpus s cs with
    | some s1 =>
      match pool.sharedq with
      | some r => some (drainq s1 r)
      | none => some s1
    | none => none
  | none =>
    match pool.sharedq with
    | some r => some (drainq s r)
    | none => some s

/-! ## Pool creation: `qmempool_create` (qmempool.c lines 64–163). -/

/-- Environment oracles for `qmempool_create`: success/failure of the
`kzalloc` of the pool record, of `ring_queue_create` for the shared ring,
of `alloc_percpu`, and of `ring_queue_create` for each CPU's local ring;
and the number of possible CPUs iterated by `for_each_possible_cpu`. -/
structure CreateEnv where
  kzallocOk : Bool
  sharedqOk : Bool
  percpuOk : Bool
  localqOk : Nat → Bool
  nrCpus : Nat

/-- Preallocation loop of `qmempool_create` (qmempool.c lines 127–136):
allocate `n` elements from the slab one by one and enqueue each into the
shared ring.  On an allocation failure the source calls
`qmempool_destroy(pool)` on a pool whose `percpu` is still null, which
drains the shared ring; the `.error` result carries the slab state after
that rollback.  An enqueue failure is the `BUG_ON(res < 0)` at line 135,
modelled as the outer `none`. -/
def preallocLoop : Nat → Slab → RingQueue → Option (Except Slab (Slab × RingQueue))
  | 0, s, q => some (.ok (s, q))
  | n + 1, s, q =>
    match kmem_cache_alloc s with
    | (none, s1) => some (.error (drainq s1 q))
    | (some e, s1) =>
      match ring_queue_enqueue q e with
      | some q1 => preallocLoop n s1 q1
      | none => none

/-- Slot for a CPU whose local ring was never created: `alloc_percpu`
returns zeroed memory, so `localq` is null and the counters are 0. -/
def nullCache : CpuCache := ⟨none, 0, 0, 0⟩

/-- Per-CPU local-ring creation loop of `qmempool_create` (qmempool.c
lines 146–160), iterating CPU ids `j, j+1, ...` for `rem` CPUs.  Each
created slot gets a fresh SPSC ring and counters `refill_cnt = 0`,
`full_cnt = 0`, `owner_cpu = -1`.  On a creation failure for some CPU the
`.error` result is the whole table as it stands — created slots for
earlier CPUs, zeroed (`nullCache`) slots for this and later CPUs — which
the source then hands to `qmempool_destroy`. -/
def localqLoop (env : CreateEnv) (localq_sz : Nat) :
    Nat → Nat → Except (List CpuCache) (List CpuCache)
  | _, 0 => .ok []
  | j, rem + 1 =>
    if env.localqOk j then
      match localqLoop env localq_sz (j + 1) rem with
      | .ok cs => .ok (⟨some (ring_queue_create localq_sz), 0, 0, -1⟩ :: cs)
      | .error cs => .error (⟨some (ring_queue_create localq_sz), 0, 0, -1⟩ :: cs)
    else
      .error (List.replicate (rem + 1) nullCache)

/-- Embedding of `qmempool_create` (qmempool.c lines 64–163).  The result
is `none` when a `BUG_ON` or a null dereference occurs during a rollback;
otherwise `some (pool?, slab)` where `pool?` is the created pool (or
`none`, the C null return, on a validation or construction failure) and
`slab` is the backing-allocator state after the call.  The validation
if-chain mirrors lines 73–109 in order; the `prealloc % BULK` check at
line 102 only emits a warning and is not represented. -/
def qmempool_create (env : CreateEnv) (s : Slab)
    (localq_sz sharedq_sz prealloc : Nat) (kmem : Bool) :
    Option (Option Pool × Slab) :=
  if localq_sz < QMEMPOOL_BULK then some (none, s)
  else if sharedq_sz ≤ QMEMPOOL_BULK * QMEMPOOL_REFILL_MULTIPLIER then some (none, s)
  else if POWEROF2 localq_sz = false ∨ POWEROF2 sharedq_sz = false then some (none, s)
  else if sharedq_sz ≤ prealloc then some (none, s)
  else if kmem = false then some (none, s)
  else if env.kzallocOk = false then some (none, s)
  else if env.sharedqOk = false then
    some (none, s)
  else
    match preallocLoop prealloc s (ring_queue_create sharedq_sz) with
    | none => none
    | some (.error s1) => some (none, s1)
    | some (.ok (s1, q1)) =>
      if env.percpuOk = false then
        some (none, drainq s1 q1)
      else
        match localqLoop env localq_sz 0 env.nrCpus with
        | .ok cs =>
          some (some ⟨kmem, prealloc, some q1, some cs⟩, s1)
        | .error cs =>
          match qmempool_destroy s1 ⟨kmem, prealloc, some q1, some cs⟩ with
          | some s2 => some (none, s2)
          | none => none

/-! ## Allocate entry point

Modelled from the spec: the allocate entry point (`__qmempool_alloc_node`,
declared in the header, not part of the excerpted core) per §2 and
§4.3–§4.5: try a single dequeue from the calling CPU's local cache; on
empty, call `__qmempool_alloc_from_sharedq`; if that yields nothing, call
`__qmempool_alloc_from_slab`.  The diagnostic `refill_cnt` increment (§4.4)
is advisory-only (§3) and is not represented. -/

/-- Result of one `allocate` call: returned element, backing-allocator
state, the two rings, and the ghost list of leaked handles. -/
structure AllocOut where
  ret : Option Nat
  slab : Slab
  sharedq : RingQueue
  localq : RingQueue
  leaked : List Nat

/-- Modelled from the spec: one `allocate` call (§2 data flow, §4.3–§4.5),
composing the fast path with the two slow paths embedded above.  The outer
`Option` is `none` when a `BUG_ON` fires in a slow path. -/
def qmempool_alloc (s : Slab) (sharedq localq : RingQueue) :
    Option AllocOut :=
  match ring_queue_dequeue localq with
  | some (e, localq1) => some ⟨some e, s, sharedq, localq1, []⟩
  | none =>
    match __qmempool_alloc_from_sharedq sharedq localq with
    | none => none
    | some out =>
      match out.ret with
      | some e => some ⟨some e, s, out.sharedq, out.localq, []⟩
      | none =>
        match __qmempool_alloc_from_slab s out.sharedq with
        | none => none
        | some sout => some ⟨sout.ret, sout.slab, sout.sharedq, out.localq, sout.leaked⟩

/-! ## Derived notions and concrete scenario inputs used by the theorems. -/

/-- Elements resident in the pool's tiers: the contents of every existing
local ring followed by the contents of the shared ring (empty contribution
for a null table/ring/slot). -/
def poolResident (pool : Pool) : List Nat :=
  (match pool.percpu with
   | none => []
   | some cs => (cs.map fun c =>
      match c.localq with
      | some r => r.q
      | none => []).flatten) ++
  (match pool.sharedq with
   | none => []
   | some r => r.q)

/-- Backing allocator with no failures, starting at handle 0. -/
def slab0 : Slab := ⟨0, fun _ => false, 0, 0, []⟩

/-- Backing allocator that fails every allocation. -/
def slabAllFail : Slab := ⟨0, fun _ => true, 0, 0, []⟩

/-- Backing allocator whose fourth allocation call (index 3) fails:
in the slowest allocate path the direct allocation (call 0) and the first
round's allocations at `j = 0, 1` (calls 1, 2) succeed, and the round's
allocation at `j = 2` (call 3) fails. -/
def slabFail3 : Slab := ⟨0, fun i => i == 3, 0, 0, []⟩

/-- Creation environment in which every step succeeds except the per-CPU
local-ring creation, which fails for every CPU (one possible CPU). -/
def envLocalqFail : CreateEnv := ⟨true, true, true, fun _ => false, 1⟩

/-- Creation environment in which every step succeeds (one possible CPU). -/
def envAllOk : CreateEnv := ⟨true, true, true, fun _ => true, 1⟩

/-- The outcome of `qmempool_alloc slabAllFail` on empty rings: the direct
slab allocation fails, so the caller gets nothing and only the allocation
call counter has moved. -/
def oomOut : AllocOut :=
  ⟨none, ⟨0, fun _ => true, 1, 0, []⟩, ring_queue_create 64, ring_queue_create 16, []⟩

/-- A shared ring of size 64 holding the 20 handles `0..19`. -/
def sqTwenty : RingQueue := ⟨64, List.range 20⟩

/-- The outcome of `__qmempool_alloc_from_sharedq sqTwenty` on an empty
local ring of size 16: handle 0 is returned, handles `1..15` land in the
local ring, handles `16..19` remain shared. -/
def sharedqOutTwenty : SharedqOut :=
  ⟨some 0, ⟨64, [16, 17, 18, 19]⟩, ⟨16, List.range' 1 15⟩⟩

/-- A full shared ring of size 64: it holds `64 - 1 = 63` elements. -/
def sqFull : RingQueue := ⟨64, List.range 63⟩

/-- A partially-constructed pool holding only a shared ring (with two
elements) and no per-CPU table — the shape left by a preallocation or
per-CPU-table allocation failure during creation. -/
def poolSharedOnly : Pool := ⟨true, 0, some ⟨64, [5, 7]⟩, none⟩

/-! ## Helper lemmas. -/

/-- Reclaiming a list of elements one by one bumps the free-call counter by
its length and appends it to the record of freed handles; nothing else of
the slab state changes. -/
theorem foldl_free (l : List Nat) (s : Slab) :
    l.foldl kmem_cache_free s =
      { s with freeCalls := s.freeCalls + l.length, freed := s.freed ++ l } := by
  induction l generalizing s with
  | nil => simp
  | cons a l ih =>
    rw [List.foldl_cons, ih]
    simp only [kmem_cache_free, List.length_cons, List.append_assoc,
      List.singleton_append]
    congr 1
    omega

/-- With a never-failing backing allocator, allocating `n` elements in a
row yields the `n` consecutive fresh handles starting at `next`. -/
theorem allocN_noFail (n : Nat) (s : Slab) (h : ∀ i, s.failAt i = false) :
    allocN s n =
      (List.range' s.next n,
       { s with next := s.next + n, allocCalls := s.allocCalls + n }, true) := by
  induction n generalizing s with
  | zero => simp [allocN]
  | succ n ih =>
    simp only [allocN, kmem_cache_alloc, h, Bool.false_eq_true, if_false]
    rw [ih { s with next := s.next + 1, allocCalls := s.allocCalls + 1 }
      (fun i => h i)]
    simp only [List.range'_succ, Prod.mk.injEq, Slab.mk.injEq, true_and,
      and_true]
    omega

/-- Draining the per-CPU table when every slot has a ring: the drain is the
sequential reclaim of all local-ring contents. -/
theorem drainCpus_allSome (cs : List CpuCache) (s : Slab)
    (h : ∀ c ∈ cs, c.localq.isSome = true) :
    drainCpus s cs =
      some ((cs.map fun c =>
        match c.localq with
        | some r => r.q
        | none => []).flatten.foldl kmem_cache_free s) := by
  induction cs generalizing s with
  | nil => simp [drainCpus]
  | cons c cs ih =>
    have hc : c.localq.isSome = true := h c (List.mem_cons_self c cs)
    rcases hq : c.localq with _ | r
    · rw [hq] at hc; simp at hc
    · simp only [drainCpus, hq, List.map_cons, List.flatten_cons,
        List.foldl_append]
      exact ih _ (fun d hd => h d (List.mem_cons_of_mem c hd))

/-- With a never-failing backing allocator and enough room in the shared
ring, every one of `k` refill rounds succeeds: `k × BULK` fresh handles
are appended to the ring and nothing is leaked. -/
theorem refillRounds_noFail (k : Nat) (s : Slab) (q : RingQueue)
    (h : ∀ i, s.failAt i = false)
    (hroom : q.q.length + k * QMEMPOOL_BULK ≤ q.size - 1) :
    refillRounds k s q =
      some ({ s with next := s.next + k * QMEMPOOL_BULK,
                     allocCalls := s.allocCalls + k * QMEMPOOL_BULK },
            ⟨q.size, q.q ++ List.range' s.next (k * QMEMPOOL_BULK)⟩, []) := by
  induction k generalizing s q with
  | zero => simp [refillRounds]
  | succ k ih =>
    simp only [refillRounds]
    rw [allocN_noFail QMEMPOOL_BULK s h]
    simp only [ring_queue_enqueue_bulk, List.length_range']
    rw [if_pos (show q.q.length + QMEMPOOL_BULK ≤ q.size - 1 by
      simp only [QMEMPOOL_BULK] at hroom ⊢; omega)]
    have hstep := ih
      { s with next := s.next + QMEMPOOL_BULK,
               allocCalls := s.allocCalls + QMEMPOOL_BULK }
      ⟨q.size, q.q ++ List.range' s.next QMEMPOOL_BULK⟩ (fun i => h i)
      (by simp only [List.length_append, List.length_range',
            QMEMPOOL_BULK] at hroom ⊢
          omega)
    refine hstep.trans ?_
    simp only [List.append_assoc]
    rw [show s.next + QMEMPOOL_BULK = s.next + 1 * QMEMPOOL_BULK from by omega,
      List.range'_append]
    simp only [QMEMPOOL_BULK]
    rw [show (k + 1) * 16 = k * 16 + 1 * 16 from by ring]
    simp only [Option.some.injEq, Prod.mk.injEq, Slab.mk.injEq,
      RingQueue.mk.injEq, true_and, and_true]
    omega

/-- Inversion of a successful bulk dequeue: the ring held at least `n`
elements, the result is the first `n` of them, and they leave the ring. -/
theorem dequeue_bulk_inv (r : RingQueue) (n : Nat) (es : List Nat)
    (r1 : RingQueue) (h : ring_queue_dequeue_bulk r n = some (es, r1)) :
    n ≤ r.q.length ∧ es = r.q.take n ∧ r1 = ⟨r.size, r.q.drop n⟩ := by
  unfold ring_queue_dequeue_bulk at h
  split at h
  · obtain ⟨h1, h2⟩ := Prod.mk.injEq .. ▸ Option.some.inj h
    exact ⟨by assumption, h1.symm, h2.symm⟩
  · cases h

/-- Inversion of a successful bulk enqueue: the elements fitted and were
appended at the tail. -/
theorem enqueue_bulk_inv (r : RingQueue) (es : List Nat) (r1 : RingQueue)
    (h : ring_queue_enqueue_bulk r es = some r1) :
    r.q.length + es.length ≤ r.size - 1 ∧ r1 = ⟨r.size, r.q ++ es⟩ := by
  unfold ring_queue_enqueue_bulk at h
  split at h
  · exact ⟨by assumption, (Option.some.inj h).symm⟩
  · cases h

/-- When the bulk dequeue from the shared ring succeeds and the call does
not hit the fatal assertion, the slow path returns the batch head and
appends the batch tail to the local ring. -/
theorem sharedq_some_inv (sq lq : RingQueue) (out : SharedqOut)
    (es : List Nat) (sq1 : RingQueue)
    (h : __qmempool_alloc_from_sharedq sq lq = some out)
    (hb : ring_queue_dequeue_bulk sq QMEMPOOL_BULK = some (es, sq1)) :
    out = ⟨es.head?, sq1, ⟨lq.size, lq.q ++ es.drop 1⟩⟩ := by
  unfold __qmempool_alloc_from_sharedq at h
  rw [hb] at h
  simp only at h
  cases he : ring_queue_enqueue_bulk lq (es.drop 1) with
  | some lq1 =>
    rw [he] at h
    obtain ⟨-, rfl⟩ := enqueue_bulk_inv lq (es.drop 1) lq1 he
    exact (Option.some.inj h).symm
  | none => rw [he] at h; cases h

/-- The shared-queue slow path returns no element exactly when the bulk
dequeue failed, and in that case it changes nothing. -/
theorem sharedq_ret_iff (sq lq : RingQueue) (out : SharedqOut)
    (h : __qmempool_alloc_from_sharedq sq lq = some out) :
    (out.ret = none ↔ ring_queue_dequeue_bulk sq QMEMPOOL_BULK = none) ∧
    (out.ret = none → out = ⟨none, sq, lq⟩) := by
  cases hb : ring_queue_dequeue_bulk sq QMEMPOOL_BULK with
  | some p =>
    obtain ⟨es, sq1⟩ := p
    obtain rfl := sharedq_some_inv sq lq out es sq1 h hb
    obtain ⟨hlen, hes, -⟩ := dequeue_bulk_inv sq QMEMPOOL_BULK es sq1 hb
    have hne : es.head?.isSome = true := by
      subst hes
      cases hq : sq.q with
      | nil => rw [hq] at hlen; simp [QMEMPOOL_BULK] at hlen
      | cons a l => simp [QMEMPOOL_BULK]
    constructor
    · constructor
      · intro hr
        rw [show (⟨es.head?, sq1, ⟨lq.size, lq.q ++ es.drop 1⟩⟩ :
            SharedqOut).ret = es.head? from rfl] at hr
        rw [hr] at hne
        cases hne
      · intro hr; exact absurd hr (by simp)
    · intro hr
      rw [show (⟨es.head?, sq1, ⟨lq.size, lq.q ++ es.drop 1⟩⟩ :
          SharedqOut).ret = es.head? from rfl] at hr
      rw [hr] at hne
      cases hne
  | none =>
    unfold __qmempool_alloc_from_sharedq at h
    rw [hb] at h
    simp only at h
    obtain rfl := (Option.some.inj h).symm
    exact ⟨by simp [hb], fun _ => rfl⟩

/-- When the direct allocation for the caller fails, the slowest path
returns no element, skips the refill rounds and leaves the shared ring
untouched. -/
theorem slab_direct_fail (s : Slab) (sq : RingQueue)
    (hf : s.failAt s.allocCalls = true) :
    __qmempool_alloc_from_slab s sq =
      some ⟨none, { s with allocCalls := s.allocCalls + 1 }, sq, []⟩ := by
  unfold __qmempool_alloc_from_slab kmem_cache_alloc
  rw [if_pos hf]

/-- The slowest path returns no element exactly when the direct allocation
for the caller failed, and in that case nothing but its call counter
changed. -/
theorem slab_ret_iff (s : Slab) (sq : RingQueue) (sout : SlabOut)
    (h : __qmempool_alloc_from_slab s sq = some sout) :
    (sout.ret = none ↔ s.failAt s.allocCalls = true) ∧
    (sout.ret = none →
      sout = ⟨none, { s with allocCalls := s.allocCalls + 1 }, sq, []⟩) := by
  by_cases hf : s.failAt s.allocCalls = true
  · rw [slab_direct_fail s sq hf] at h
    obtain rfl := (Option.some.inj h).symm
    exact ⟨by simp [hf], fun _ => rfl⟩
  · unfold __qmempool_alloc_from_slab kmem_cache_alloc at h
    rw [if_neg hf] at h
    simp only at h
    cases hr : refillRounds QMEMPOOL_REFILL_MULTIPLIER
        { s with next := s.next + 1, allocCalls := s.allocCalls + 1 } sq with
    | some p =>
      obtain ⟨s2, q1, leaked⟩ := p
      rw [hr] at h
      simp only at h
      obtain rfl := (Option.some.inj h).symm
      exact ⟨by simp [hf], by simp⟩
    | none => rw [hr] at h; simp only at h; cases h

/-! ## Claim theorems. -/

/-- C1, counterexample: starting from an empty shared pool (size 64) and an
empty local cache (size 16) with a never-failing backing allocator, a
single `allocate` leaves `REFILL_MULTIPLIER × BULK = 32` elements in the
shared pool and `0` in the local cache — not the
`(REFILL_MULTIPLIER − 1) × BULK = 16` and `BULK − 1 = 15` the claim
states. -/
theorem C1_counterexample_refill_counts :
    (qmempool_alloc slab0 (ring_queue_create 64) (ring_queue_create 16)).map
        (fun o => (o.sharedq.q.length, o.localq.q.length)) =
      some (QMEMPOOL_REFILL_MULTIPLIER * QMEMPOOL_BULK, 0) ∧
    ¬ (qmempool_alloc slab0 (ring_queue_create 64) (ring_queue_create 16)).map
        (fun o => (o.sharedq.q.length, o.localq.q.length)) =
      some ((QMEMPOOL_REFILL_MULTIPLIER - 1) * QMEMPOOL_BULK,
            QMEMPOOL_BULK - 1) := by
  constructor
  · rfl
  · intro h
    rw [show (qmempool_alloc slab0 (ring_queue_create 64)
        (ring_queue_create 16)).map
        (fun o => (o.sharedq.q.length, o.localq.q.length)) =
        some (32, 0) from rfl] at h
    simp [QMEMPOOL_REFILL_MULTIPLIER, QMEMPOOL_BULK] at h

/-- C1, amended: starting from an empty shared pool and an empty local
cache with a never-failing backing allocator, a single `allocate` makes
`1 + REFILL_MULTIPLIER × BULK` backing-allocator alloc calls (in
particular at least one), leaves the shared pool holding exactly
`REFILL_MULTIPLIER × BULK` elements and the local cache holding `0`
elements (it is deliberately not refilled in this path), and the returned
element is distinct from every retained element. -/
theorem C1_amended_single_alloc_refill (s : Slab)
    (h : ∀ i, s.failAt i = false) :
    qmempool_alloc s (ring_queue_create 64) (ring_queue_create 16) =
      some ⟨some s.next,
            { s with
                next := s.next + (1 + QMEMPOOL_REFILL_MULTIPLIER * QMEMPOOL_BULK),
                allocCalls :=
                  s.allocCalls + (1 + QMEMPOOL_REFILL_MULTIPLIER * QMEMPOOL_BULK) },
            ⟨64, List.range' (s.next + 1) (QMEMPOOL_REFILL_MULTIPLIER * QMEMPOOL_BULK)⟩,
            ⟨16, []⟩, []⟩ ∧
    s.next ∉ List.range' (s.next + 1) (QMEMPOOL_REFILL_MULTIPLIER * QMEMPOOL_BULK) := by
  constructor
  · have hglue : qmempool_alloc s (ring_queue_create 64) (ring_queue_create 16) =
        (match __qmempool_alloc_from_slab s (ring_queue_create 64) with
         | none => none
         | some sout =>
           some ⟨sout.ret, sout.slab, sout.sharedq, ⟨16, []⟩, sout.leaked⟩) := rfl
    rw [hglue]
    simp only [__qmempool_alloc_from_slab, kmem_cache_alloc, h,
      Bool.false_eq_true, if_false]
    rw [refillRounds_noFail QMEMPOOL_REFILL_MULTIPLIER
      { s with next := s.next + 1, allocCalls := s.allocCalls + 1 }
      (ring_queue_create 64) (fun i => h i)
      (by simp [ring_queue_create, QMEMPOOL_BULK, QMEMPOOL_REFILL_MULTIPLIER])]
    simp only [ring_queue_create, List.nil_append, QMEMPOOL_BULK,
      QMEMPOOL_REFILL_MULTIPLIER, Option.some.injEq, AllocOut.mk.injEq,
      Slab.mk.injEq, RingQueue.mk.injEq, true_and, and_true]
  · intro hmem
    rw [List.mem_range'] at hmem
    obtain ⟨i, hi, heq⟩ := hmem
    omega

/-- C1, witness for the amended theorem at the concrete never-failing
allocator `slab0`. -/
theorem C1_amended_single_alloc_refill_witness :
    qmempool_alloc slab0 (ring_queue_create 64) (ring_queue_create 16) =
      some ⟨some slab0.next,
            { slab0 with
                next := slab0.next + (1 + QMEMPOOL_REFILL_MULTIPLIER * QMEMPOOL_BULK),
                allocCalls :=
                  slab0.allocCalls + (1 + QMEMPOOL_REFILL_MULTIPLIER * QMEMPOOL_BULK) },
            ⟨64, List.range' (slab0.next + 1) (QMEMPOOL_REFILL_MULTIPLIER * QMEMPOOL_BULK)⟩,
            ⟨16, []⟩, []⟩ ∧
    slab0.next ∉ List.range' (slab0.next + 1) (QMEMPOOL_REFILL_MULTIPLIER * QMEMPOOL_BULK) :=
  C1_amended_single_alloc_refill slab0 (fun _ => rfl)

/-- C2: with a backing allocator whose fourth allocation call fails
(`slabFail3`), the slowest allocate path allocates handles 1 and 2 in its
first refill round (the final slab state `next = 3` shows handles 0, 1, 2
were created), but bulk-enqueues only `[1]` into the shared pool and drops
handle 2 (the `leaked` ghost field), because the source passes `j - 1`
instead of `j` as the enqueue count; refilling stops and the caller still
receives handle 0.  The claim (and spec) say the whole successfully
allocated subset `[1, 2]` is enqueued with no leak, so this run exhibits
the divergence. -/
theorem C2_partial_round_leaks_last_element :
    (__qmempool_alloc_from_slab slabFail3 (ring_queue_create 64)).map
        (fun o => (o.ret, o.sharedq.q, o.leaked, o.slab.next, o.slab.allocCalls)) =
      some (some 0, [1], [2], 3, 4) := rfl

/-- C4: failing input for creation atomicity.  With a valid configuration
`(localq 16, sharedq 64, prealloc 32)` and an environment in which every
step succeeds except per-CPU local-ring creation, `qmempool_create`'s
rollback calls `qmempool_destroy` on a pool whose per-CPU table contains
null local rings; the destroy path dereferences the null ring (the model's
fatal outcome `none`) instead of releasing the 32 preallocated elements
and returning an error. -/
theorem C4_localq_failure_rollback_crashes :
    qmempool_create envLocalqFail slab0 16 64 32 true = none := rfl

/-- C10, counterexample: a partially-constructed pool whose shared ring is
null (so the claim's hypothesis holds) but whose per-CPU table is non-null
and contains a slot with a null local ring.  `qmempool_destroy`
dereferences that null ring (fatal outcome `none`) instead of skipping the
null tier and releasing the pool record; such a table arises in the
local-ring-creation-failure rollback, so the nullness of the table or the
shared ring does not cover every creation-failure rollback path. -/
theorem C10_counterexample_null_localq_deref :
    qmempool_destroy slab0 ⟨true, 0, none, some [nullCache]⟩ = none := rfl

/-- C3: `qmempool_create` with a non-power-of-two local or shared size, or
`localq_sz < BULK`, or `sharedq_sz ≤ BULK × REFILL_MULTIPLIER`, or
`prealloc ≥ sharedq_sz`, or a null backing allocator, returns the error
result with the backing-allocator state returned exactly as given: no
allocation was performed and nothing was mutated. -/
theorem C3_create_rejects_invalid_config
    (env : CreateEnv) (s : Slab) (lsz ssz pre : Nat) (kmem : Bool)
    (h : POWEROF2 lsz = false ∨ POWEROF2 ssz = false ∨
         lsz < QMEMPOOL_BULK ∨
         ssz ≤ QMEMPOOL_BULK * QMEMPOOL_REFILL_MULTIPLIER ∨
         ssz ≤ pre ∨ kmem = false) :
    qmempool_create env s lsz ssz pre kmem = some (none, s) := by
  unfold qmempool_create
  split_ifs <;>
    first
    | rfl
    | (exfalso; rcases h with h | h | h | h | h | h <;>
        first | omega | simp_all)

/-- C3, witness: `localq_sz = 8 < BULK` is rejected with the allocator
state unchanged. -/
theorem C3_create_rejects_invalid_config_witness :
    qmempool_create envAllOk slab0 8 64 0 true = some (none, slab0) :=
  C3_create_rejects_invalid_config envAllOk slab0 8 64 0 true
    (Or.inr (Or.inr (Or.inl (by decide))))

/-- C5: whenever one `allocate` call completes (no fatal assertion), it
returns no element exactly when the local cache was empty, the shared-pool
bulk dequeue failed, and the single direct backing-allocator allocation of
the slowest path failed — the only caller-visible failure mode; and in
that case no refill round ran and nothing changed except that one failed
allocation call: the shared pool, the local cache, the fresh-handle
counter and the free records are all untouched. -/
theorem C5_oom_only_from_direct_alloc (s : Slab) (sq lq : RingQueue)
    (out : AllocOut) (hout : qmempool_alloc s sq lq = some out) :
    (out.ret = none ↔
      (ring_queue_dequeue lq = none ∧
       ring_queue_dequeue_bulk sq QMEMPOOL_BULK = none ∧
       s.failAt s.allocCalls = true)) ∧
    (out.ret = none →
      out.slab = { s with allocCalls := s.allocCalls + 1 } ∧
      out.sharedq = sq ∧ out.localq = lq ∧ out.leaked = []) := by
  unfold qmempool_alloc at hout
  cases hd : ring_queue_dequeue lq with
  | some p =>
    obtain ⟨e, lq1⟩ := p
    rw [hd] at hout
    simp only at hout
    obtain rfl := (Option.some.inj hout).symm
    simp
  | none =>
    rw [hd] at hout
    simp only at hout
    cases hsh : __qmempool_alloc_from_sharedq sq lq with
    | none => rw [hsh] at hout; simp only at hout; cases hout
    | some out1 =>
      rw [hsh] at hout
      simp only at hout
      cases hr1 : out1.ret with
      | some e =>
        rw [hr1] at hout
        simp only at hout
        obtain rfl := (Option.some.inj hout).symm
        have hiff := (sharedq_ret_iff sq lq out1 hsh).1
        rw [hr1] at hiff
        constructor
        · constructor
          · intro habs; cases habs
          · rintro ⟨-, h2, -⟩
            exact absurd (hiff.mpr h2) (by simp)
        · intro habs; cases habs
      | none =>
        rw [hr1] at hout
        simp only at hout
        have hdq : ring_queue_dequeue_bulk sq QMEMPOOL_BULK = none :=
          (sharedq_ret_iff sq lq out1 hsh).1.mp hr1
        obtain rfl := (sharedq_ret_iff sq lq out1 hsh).2 hr1
        simp only at hout
        cases hsl : __qmempool_alloc_from_slab s sq with
        | none => rw [hsl] at hout; simp only at hout; cases hout
        | some sout =>
          rw [hsl] at hout
          simp only at hout
          obtain rfl := (Option.some.inj hout).symm
          have hsi := slab_ret_iff s sq sout hsl
          constructor
          · rw [show (⟨sout.ret, sout.slab, sout.sharedq,
                (⟨none, sq, lq⟩ : SharedqOut).localq, sout.leaked⟩ :
                AllocOut).ret = sout.ret from rfl]
            rw [hsi.1]
            simp [hdq]
          · intro h
            have h1 : sout.ret = none := h
            obtain rfl := hsi.2 h1
            exact ⟨rfl, rfl, rfl, rfl⟩

/-- C5, witness at the all-failing allocator on empty rings of sizes 64
and 16. -/
theorem C5_oom_only_from_direct_alloc_witness :
    (oomOut.ret = none ↔
      (ring_queue_dequeue (ring_queue_create 16) = none ∧
       ring_queue_dequeue_bulk (ring_queue_create 64) QMEMPOOL_BULK = none ∧
       slabAllFail.failAt slabAllFail.allocCalls = true)) ∧
    (oomOut.ret = none →
      oomOut.slab =
        { slabAllFail with allocCalls := slabAllFail.allocCalls + 1 } ∧
      oomOut.sharedq = ring_queue_create 64 ∧
      oomOut.localq = ring_queue_create 16 ∧
      oomOut.leaked = []) :=
  C5_oom_only_from_direct_alloc slabAllFail (ring_queue_create 64)
    (ring_queue_create 16) oomOut rfl

/-- C6: whenever the allocate slow path completes (no fatal assertion):
if the bulk dequeue of `BULK` elements from the shared pool succeeded,
the path returns element 0 of the batch (which exists) and bulk-enqueues
exactly the remaining `BULK − 1` elements, in order, at the tail of the
local cache; if the bulk dequeue failed, it returns no element and leaves
both rings exactly as they were. -/
theorem C6_sharedq_refill_splits_batch (sq lq : RingQueue)
    (out : SharedqOut)
    (hout : __qmempool_alloc_from_sharedq sq lq = some out) :
    (∀ es sq1, ring_queue_dequeue_bulk sq QMEMPOOL_BULK = some (es, sq1) →
       out = ⟨es.head?, sq1, ⟨lq.size, lq.q ++ es.drop 1⟩⟩ ∧
       es.head?.isSome = true) ∧
    (ring_queue_dequeue_bulk sq QMEMPOOL_BULK = none →
       out = ⟨none, sq, lq⟩) := by
  constructor
  · intro es sq1 hb
    refine ⟨sharedq_some_inv sq lq out es sq1 hout hb, ?_⟩
    obtain ⟨hlen, hes, -⟩ := dequeue_bulk_inv sq QMEMPOOL_BULK es sq1 hb
    subst hes
    cases hq : sq.q with
    | nil => rw [hq] at hlen; simp [QMEMPOOL_BULK] at hlen
    | cons a l => simp [hq, QMEMPOOL_BULK]
  · intro hb
    exact (sharedq_ret_iff sq lq out hout).2
      ((sharedq_ret_iff sq lq out hout).1.mpr hb)

/-- C6, witness: dequeuing handles `0..15` from a 20-element shared ring
returns handle 0 and puts `1..15` into the empty local ring. -/
theorem C6_sharedq_refill_splits_batch_witness :
    (sharedqOutTwenty =
      ⟨(List.range 16).head?, ⟨64, [16, 17, 18, 19]⟩,
        ⟨(ring_queue_create 16).size,
         (ring_queue_create 16).q ++ (List.range 16).drop 1⟩⟩ ∧
     (List.range 16).head?.isSome = true) :=
  (C6_sharedq_refill_splits_batch sqTwenty (ring_queue_create 16)
    sharedqOutTwenty rfl).1 (List.range 16) ⟨64, [16, 17, 18, 19]⟩ rfl

/-- C7: when the local cache is empty and its size is at least `BULK` (so
its usable capacity `size − 1` is at least `BULK − 1`), the allocate slow
path can never hit the fatal assertion on the local bulk enqueue: the
call always completes. -/
theorem C7_local_refill_enqueue_succeeds (sq lq : RingQueue)
    (hempty : lq.q = []) (hcap : QMEMPOOL_BULK ≤ lq.size) :
    __qmempool_alloc_from_sharedq sq lq ≠ none := by
  unfold __qmempool_alloc_from_sharedq
  cases hb : ring_queue_dequeue_bulk sq QMEMPOOL_BULK with
  | none => simp
  | some p =>
    obtain ⟨es, sq1⟩ := p
    obtain ⟨hlen, hes, -⟩ := dequeue_bulk_inv sq QMEMPOOL_BULK es sq1 hb
    have hlen2 : (es.drop 1).length = QMEMPOOL_BULK - 1 := by
      subst hes
      simp only [List.length_drop, List.length_take, QMEMPOOL_BULK] at hlen ⊢
      omega
    have henq : ring_queue_enqueue_bulk lq (es.drop 1) =
        some ⟨lq.size, lq.q ++ es.drop 1⟩ := by
      unfold ring_queue_enqueue_bulk
      rw [if_pos (by
        rw [hlen2, hempty]
        simp only [QMEMPOOL_BULK, List.length_nil] at hcap ⊢
        omega)]
    simp only []
    rw [henq]
    simp

/-- C7, witness: an empty local ring of size 16 and a 20-element shared
ring. -/
theorem C7_local_refill_enqueue_succeeds_witness :
    __qmempool_alloc_from_sharedq sqTwenty (ring_queue_create 16) ≠ none :=
  C7_local_refill_enqueue_succeeds sqTwenty (ring_queue_create 16) rfl
    (by decide)

/-- C8: entering the free slow path with a `BULK`-element batch and a full
shared pool (whose size satisfies the creation invariant
`BULK × REFILL_MULTIPLIER < size`) reclaims to the backing allocator first
the entire batch and then the `BULK × REFILL_MULTIPLIER` elements of the
shrink rounds — `BULK × (REFILL_MULTIPLIER + 1)` reclaim calls in total —
and the shared pool afterwards is a suffix of its old contents: no batch
element entered it. -/
theorem C8_full_pool_overflow_reclaims_all (s : Slab) (sq : RingQueue)
    (elems : List Nat)
    (hlen : elems.length = QMEMPOOL_BULK)
    (hfull : sq.q.length = sq.size - 1)
    (hsz : QMEMPOOL_BULK * QMEMPOOL_REFILL_MULTIPLIER < sq.size) :
    __qmempool_free_to_slab s sq elems =
      some ({ s with
                freeCalls := s.freeCalls +
                  QMEMPOOL_BULK * (QMEMPOOL_REFILL_MULTIPLIER + 1),
                freed := s.freed ++ elems ++
                  sq.q.take (QMEMPOOL_BULK * QMEMPOOL_REFILL_MULTIPLIER) },
            ⟨sq.size, sq.q.drop (QMEMPOOL_BULK * QMEMPOOL_REFILL_MULTIPLIER)⟩) := by
  unfold __qmempool_free_to_slab
  rw [foldl_free elems s]
  rw [show QMEMPOOL_REFILL_MULTIPLIER = 0 + 1 + 1 from rfl]
  simp only [shrinkRounds]
  have hb1 : ring_queue_dequeue_bulk sq QMEMPOOL_BULK =
      some (sq.q.take QMEMPOOL_BULK, ⟨sq.size, sq.q.drop QMEMPOOL_BULK⟩) := by
    unfold ring_queue_dequeue_bulk
    rw [if_pos (by
      simp only [QMEMPOOL_BULK, QMEMPOOL_REFILL_MULTIPLIER] at hsz ⊢
      omega)]
  rw [hb1]
  simp only []
  rw [foldl_free]
  have hb2 : ring_queue_dequeue_bulk ⟨sq.size, sq.q.drop QMEMPOOL_BULK⟩
      QMEMPOOL_BULK =
      some ((sq.q.drop QMEMPOOL_BULK).take QMEMPOOL_BULK,
            ⟨sq.size, (sq.q.drop QMEMPOOL_BULK).drop QMEMPOOL_BULK⟩) := by
    unfold ring_queue_dequeue_bulk
    rw [if_pos (by
      simp only [QMEMPOOL_BULK, QMEMPOOL_REFILL_MULTIPLIER, List.length_drop]
        at hsz ⊢
      omega)]
  rw [hb2]
  simp only []
  rw [foldl_free]
  simp only [Option.some.injEq, Prod.mk.injEq, Slab.mk.injEq,
    RingQueue.mk.injEq, true_and, and_true, List.drop_drop]
  refine ⟨⟨?_, ?_⟩, ?_⟩
  · simp only [List.length_take, List.length_drop, List.length_append,
      QMEMPOOL_BULK, QMEMPOOL_REFILL_MULTIPLIER] at hsz hlen ⊢
    omega
  · rw [show QMEMPOOL_BULK * (0 + 1 + 1) =
      QMEMPOOL_BULK + QMEMPOOL_BULK from rfl]
    rw [List.take_add]
    simp [List.append_assoc]
  · rw [show QMEMPOOL_BULK * (0 + 1 + 1) =
      QMEMPOOL_BULK + QMEMPOOL_BULK from rfl]

/-- C8, witness: a full 64-slot shared ring (63 elements) and a batch of
16 overflow handles. -/
theorem C8_full_pool_overflow_reclaims_all_witness :
    __qmempool_free_to_slab slab0 sqFull (List.range' 100 16) =
      some ({ slab0 with
                freeCalls := slab0.freeCalls +
                  QMEMPOOL_BULK * (QMEMPOOL_REFILL_MULTIPLIER + 1),
                freed := slab0.freed ++ List.range' 100 16 ++
                  sqFull.q.take (QMEMPOOL_BULK * QMEMPOOL_REFILL_MULTIPLIER) },
            ⟨sqFull.size,
             sqFull.q.drop (QMEMPOOL_BULK * QMEMPOOL_REFILL_MULTIPLIER)⟩) :=
  C8_full_pool_overflow_reclaims_all slab0 sqFull (List.range' 100 16)
    (by decide) (by decide) (by decide)

/-- C9: when an `allocate` call takes the slowest path (the local cache
dequeue found it empty and the shared-pool bulk dequeue failed) and
completes, the calling CPU's local cache is returned exactly as it was,
whether or not the direct allocation succeeded. -/
theorem C9_slab_refill_preserves_localq (s : Slab) (sq lq : RingQueue)
    (out : AllocOut)
    (h1 : ring_queue_dequeue lq = none)
    (h2 : ring_queue_dequeue_bulk sq QMEMPOOL_BULK = none)
    (hout : qmempool_alloc s sq lq = some out) :
    out.localq = lq := by
  unfold qmempool_alloc at hout
  rw [h1] at hout
  simp only at hout
  have hsh : __qmempool_alloc_from_sharedq sq lq = some ⟨none, sq, lq⟩ := by
    unfold __qmempool_alloc_from_sharedq
    rw [h2]
  rw [hsh] at hout
  simp only at hout
  cases hsl : __qmempool_alloc_from_slab s sq with
  | none => rw [hsl] at hout; simp only at hout; cases hout
  | some sout =>
    rw [hsl] at hout
    simp only at hout
    obtain rfl := (Option.some.inj hout).symm
    rfl

/-- C9, witness: the slowest path on empty rings with a failing backing
allocator leaves the local ring untouched. -/
theorem C9_slab_refill_preserves_localq_witness :
    oomOut.localq = ring_queue_create 16 :=
  C9_slab_refill_preserves_localq slabAllFail (ring_queue_create 64)
    (ring_queue_create 16) oomOut rfl rfl rfl

/-- C10, amended: `qmempool_destroy` is safe on a partially-constructed
pool whose per-CPU table is null or whose shared ring is null — the shapes
left by the shared-ring-creation, preallocation and per-CPU-table
allocation failure rollbacks — provided every slot of a non-null table
holds a ring: it skips the null tiers, drains exactly the resident
elements of the tiers that exist back to the backing allocator, and always
completes (releasing the pool record).  The local-ring-creation failure
rollback is not covered: it leaves a non-null table containing null local
rings, which destroy dereferences. -/
theorem C10_amended_destroy_skips_null_tiers (s : Slab) (pool : Pool)
    (hnull : pool.percpu = none ∨ pool.sharedq = none)
    (hlq : ∀ cs, pool.percpu = some cs → ∀ c ∈ cs, c.localq.isSome = true) :
    qmempool_destroy s pool =
      some { s with freeCalls := s.freeCalls + (poolResident pool).length,
                    freed := s.freed ++ poolResident pool } := by
  unfold qmempool_destroy poolResident
  rcases hp : pool.percpu with _ | cs
  · rcases hs : pool.sharedq with _ | r
    · simp
    · simp only []
      unfold drainq
      rw [foldl_free]
      simp
  · have hs : pool.sharedq = none := by
      rcases hnull with h | h
      · rw [hp] at h; cases h
      · exact h
    rw [hs]
    simp only []
    rw [drainCpus_allSome cs s (hlq cs hp)]
    simp only []
    rw [foldl_free]
    simp

/-- C10, witness for the amended theorem: destroying a rollback-shaped
pool with only a two-element shared ring reclaims those two elements and
completes. -/
theorem C10_amended_destroy_skips_null_tiers_witness :
    qmempool_destroy slab0 poolSharedOnly =
      some { slab0 with
               freeCalls := slab0.freeCalls + (poolResident poolSharedOnly).length,
               freed := slab0.freed ++ poolResident poolSharedOnly } :=
  C10_amended_destroy_skips_null_tiers slab0 poolSharedOnly (Or.inl rfl)
    (fun _ h => nomatch h)

end Qmempool
